import Mathlib

/-!
Shallow embedding of the arkan/sqlproxy repository.

The repository contains two near-duplicate server entry points and a client
driver:
  - src/cmd/proxy/main.go      (referred to below with the prefix main_)
  - src/unnamed/part_000       (a variant server, prefix p0_)
  - src/unnamed/part_001       (the client driver adapter)

Both servers read 4-byte big-endian length-prefixed frames whose payloads are
msgpack-encoded request structs, classify them as query or exec, run them
against a backing database handle, and write a length-prefixed msgpack
response. The client driver frames and sends requests the same way.

Machine integers are modelled as Nat or Int with explicit bounds; byte
sequences as List Nat; msgpack payloads at the structured-value level.
-/

/-! ## Frame codec

Both sides write a frame as a 4-byte big-endian unsigned length followed by
the payload (main.go sendResponse, part_001 sendRequest), and read one by
reading exactly 4 length bytes and then exactly that many payload bytes
(main.go / part_000 handleConnection, part_001 readQueryResponse).
-/

/-- Big-endian 4-byte encoding of a natural number, as written by
binary.BigEndian.PutUint32 in sendResponse and binary.Write in sendRequest. -/
def natTo4be (n : Nat) : List Nat :=
  [n / 16777216 % 256, n / 65536 % 256, n / 256 % 256, n % 256]

/-- Big-endian 32-bit read, as binary.BigEndian.Uint32 in handleConnection. -/
def be32 : List Nat → Nat
  | [a, b, c, d] => ((a * 256 + b) * 256 + c) * 256 + d
  | _ => 0

/-- Frame writing: length prefix followed by the payload bytes, exactly as
sendResponse (server) and sendRequest (client) emit them. -/
def writeFrame (p : List Nat) : List Nat :=
  natTo4be p.length ++ p

/-- Frame reading over a byte stream, as in handleConnection: io.ReadFull of
4 length bytes, then io.ReadFull of a buffer of the declared length. The
declared length is used unchecked: the code allocates make([]byte, length)
and reads that many bytes whenever the stream provides them. Returns the
payload and the remaining stream, or none when the stream is too short
(io.ReadFull error, which terminates the connection loop). -/
def readFrame : List Nat → Option (List Nat × List Nat)
  | b0 :: b1 :: b2 :: b3 :: rest =>
    let len := be32 [b0, b1, b2, b3]
    if len ≤ rest.length then some (rest.take len, rest.drop len) else none
  | _ => none

/-- Modelled from the spec: the configured maximum frame size, default
64 MiB (section 4.1). No maximum frame size exists anywhere in src/; this
constant exists only to state claims that mention the configured maximum. -/
def maxFrameSize : Nat := 67108864

/-! ## Msgpack payload model

Requests are msgpack maps produced by marshalling the Go structs
QueryRequest / ExecRequest, whose msgpack tags are "query" and "args" in
both the servers and the client. A received payload either parses as one
structured msgpack value or is malformed. -/

/-- Structured msgpack values as used by the request/response structs:
nil, booleans, integers, strings, binary, arrays and maps. -/
inductive MVal : Type
  | nil : MVal
  | bool : Bool → MVal
  | int : Int → MVal
  | str : String → MVal
  | bin : List Nat → MVal
  | arr : List MVal → MVal
  | map : List (MVal × MVal) → MVal

/-- Received payload bytes: either they parse as a single msgpack value or
msgpack.Unmarshal fails on them. -/
inductive Payload : Type
  | wellFormed : MVal → Payload
  | malformed : Payload

/-- Go struct QueryRequest (identical in main.go, part_000 and part_001):
query string and args slice, msgpack tags "query" and "args". -/
structure QueryRequest where
  query : String
  args : List MVal

/-- Go struct ExecRequest: the same field set and the same msgpack tags as
QueryRequest, in all three files. -/
structure ExecRequest where
  query : String
  args : List MVal

/-- Msgpack struct decoding of the shared request shape, mirroring how
msgpack.Unmarshal fills QueryRequest / ExecRequest: the top-level value must
be a map; each key must decode as a string; the "query" entry must be a
string (nil leaves the zero value), the "args" entry an array (nil leaves
the zero value); unknown string keys are skipped; any other shape fails.
Fields left unset keep the Go zero values (empty string, nil slice). -/
def decodeRequestFields : List (MVal × MVal) → String → List MVal → Option (String × List MVal)
  | [], q, a => some (q, a)
  | (MVal.str k, v) :: rest, q, a =>
    if k = "query" then
      match v with
      | MVal.str s => decodeRequestFields rest s a
      | MVal.nil => decodeRequestFields rest q a
      | _ => none
    else if k = "args" then
      match v with
      | MVal.arr l => decodeRequestFields rest q l
      | MVal.nil => decodeRequestFields rest q a
      | _ => none
    else decodeRequestFields rest q a
  | (_, _) :: _, _, _ => none

/-- Decoding a payload into the shared request shape. -/
def decodeRequestShape : Payload → Option (String × List MVal)
  | Payload.wellFormed (MVal.map entries) => decodeRequestFields entries "" []
  | Payload.wellFormed _ => none
  | Payload.malformed => none

/-- The result of msgpack.Unmarshal(data, &QueryRequest) in isQuery,
handleQuery. -/
def decodeQueryRequest (p : Payload) : Option QueryRequest :=
  (decodeRequestShape p).map fun qa => { query := qa.1, args := qa.2 }

/-- The result of msgpack.Unmarshal(data, &ExecRequest) in handleExec; the
computation is identical to decodeQueryRequest because the two structs have
the same fields and tags. -/
def decodeExecRequest (p : Payload) : Option ExecRequest :=
  (decodeRequestShape p).map fun qa => { query := qa.1, args := qa.2 }

/-- Msgpack.Marshal of a QueryRequest as sent by the client Stmt.Query:
a map with the tag keys in field order. -/
def encodeQueryRequest (r : QueryRequest) : MVal :=
  MVal.map [(MVal.str "query", MVal.str r.query), (MVal.str "args", MVal.arr r.args)]

/-- Msgpack.Marshal of an ExecRequest as sent by the client Stmt.Exec:
byte-for-byte the same wire shape as a QueryRequest with the same fields. -/
def encodeExecRequest (e : ExecRequest) : MVal :=
  MVal.map [(MVal.str "query", MVal.str e.query), (MVal.str "args", MVal.arr e.args)]

/-! ## Request classifier

main.go isQuery returns whether msgpack.Unmarshal into QueryRequest
succeeds. part_000 isQuery additionally extracts the first word of the
trimmed query text and compares it, upper-cased, with SELECT; it indexes
strings.Fields(query)[0] unconditionally, which panics when the trimmed
query has no fields. -/

/-- Go unicode whitespace recognised by strings.TrimSpace and
strings.Fields, restricted to the ASCII range. -/
def isWS (c : Char) : Bool :=
  c = ' ' || c = '\t' || c = '\n' || c = '\r' || c = Char.ofNat 11 || c = Char.ofNat 12

/-- strings.TrimSpace on ASCII text. -/
def trimSpace (s : String) : String :=
  String.mk (((s.toList.dropWhile isWS).reverse.dropWhile isWS).reverse)

/-- Accumulator for fields; first argument is the remaining input, second
the current word reversed. -/
def fieldsAux : List Char → List Char → List String
  | [], acc => if acc.isEmpty then [] else [String.mk acc.reverse]
  | c :: cs, acc =>
    if isWS c then
      if acc.isEmpty then fieldsAux cs [] else String.mk acc.reverse :: fieldsAux cs []
    else fieldsAux cs (c :: acc)

/-- strings.Fields on ASCII text: whitespace-separated words. -/
def fields (s : String) : List String :=
  fieldsAux s.toList []

/-- strings.ToUpper on ASCII text. -/
def toUpperStr (s : String) : String :=
  String.mk (s.toList.map Char.toUpper)

/-- isQuery from src/cmd/proxy/main.go lines 101-104: true exactly when
msgpack.Unmarshal into a QueryRequest returns nil error. -/
def main_isQuery (data : Payload) : Bool :=
  (decodeQueryRequest data).isSome

/-- Routing outcome of the server dispatch: which handler is invoked. -/
inductive Route : Type
  | query : Route
  | exec : Route
deriving DecidableEq

/-- The dispatch in main.go handleConnection lines 93-98: handleQuery when
isQuery, handleExec otherwise. -/
def main_route (data : Payload) : Route :=
  if main_isQuery data then Route.query else Route.exec

/-- isQuery from src/unnamed/part_000 lines 110-123. Returns none for the
index-out-of-range panic Go raises on strings.Fields(query)[0] when the
trimmed query contains no field; otherwise some of the boolean result. -/
def p0_isQuery (data : Payload) : Option Bool :=
  match decodeQueryRequest data with
  | none => some false
  | some temp =>
    match fields (trimSpace temp.query) with
    | [] => none
    | w :: _ => some (toUpperStr w == "SELECT")

/-! ## Server dispatch and handlers

The backing engine handle db is modelled as two functions passed in
explicitly: a query side (db.Query plus rows.Columns and the row scan loop,
yielding column names and materialized rows) and an exec side (db.Exec
followed by RowsAffected / LastInsertId whose own errors the code discards,
yielding the two counters). Each either fails with an error message or
yields its result. -/

/-- Response values the servers marshal back (QueryResponse and
ExecResponse structs). There is no error response variant anywhere in the
source. -/
inductive Resp : Type
  | queryResp : List String → List (List MVal) → Resp
  | execResp : Int → Int → Resp

/-- Outcome of one main.go handler invocation. nilDeref marks the points
where the Go code dereferences a nil handle: handleQuery discards the
db.Query error with rows, _ := and then runs rows.Columns() and the
deferred rows.Close() on the nil *sql.Rows; handleExec discards the db.Exec
error and calls result.RowsAffected() on the nil driver.Result. -/
inductive MainOutcome : Type
  | respond : Resp → MainOutcome
  | nilDeref : MainOutcome

/-- handleQuery from src/cmd/proxy/main.go lines 106-129. The unmarshal
error is ignored (a failed decode leaves the zero-valued struct), the
db.Query error is discarded, and on engine failure the nil rows handle is
dereferenced. -/
def main_handleQuery (dbQuery : String → List MVal → Except String (List String × List (List MVal)))
    (data : Payload) : MainOutcome :=
  let req := (decodeQueryRequest data).getD { query := "", args := [] }
  match dbQuery req.query req.args with
  | Except.error _ => MainOutcome.nilDeref
  | Except.ok (cols, rows) => MainOutcome.respond (Resp.queryResp cols rows)

/-- handleExec from src/cmd/proxy/main.go lines 131-142. The unmarshal
error is ignored, the db.Exec error is discarded, and on engine failure
result.RowsAffected() is called on the nil result. -/
def main_handleExec (dbExec : String → List MVal → Except String (Int × Int))
    (data : Payload) : MainOutcome :=
  let req := (decodeExecRequest data).getD { query := "", args := [] }
  match dbExec req.query req.args with
  | Except.error _ => MainOutcome.nilDeref
  | Except.ok (ra, li) => MainOutcome.respond (Resp.execResp ra li)

/-- One iteration of the main.go handleConnection loop after a frame has
been read: dispatch on isQuery. -/
def main_connStep (dbQuery : String → List MVal → Except String (List String × List (List MVal)))
    (dbExec : String → List MVal → Except String (Int × Int))
    (data : Payload) : MainOutcome :=
  if main_isQuery data then main_handleQuery dbQuery data else main_handleExec dbExec data

/-- Outcome of one part_000 handleConnection loop iteration after a frame
has been read: either a response is sent and the loop continues, or the
handler returned an error and the loop returns, closing the connection
(defer conn.Close()) without writing anything, or the classifier panicked. -/
inductive P0Step : Type
  | respondContinue : Resp → P0Step
  | closed : P0Step
  | panicked : P0Step

/-- handleQuery from src/unnamed/part_000 lines 125-158: returns the
unmarshal error or the db.Query error to the caller, otherwise sends the
response. -/
def p0_handleQuery (dbQuery : String → List MVal → Except String (List String × List (List MVal)))
    (data : Payload) : Except String Resp :=
  match decodeQueryRequest data with
  | none => Except.error "unmarshal"
  | some req =>
    match dbQuery req.query req.args with
    | Except.error e => Except.error e
    | Except.ok (cols, rows) => Except.ok (Resp.queryResp cols rows)

/-- handleExec from src/unnamed/part_000 lines 160-181: returns the
unmarshal error or the db.Exec error, otherwise sends the response built
from RowsAffected / LastInsertId (whose own errors are discarded). -/
def p0_handleExec (dbExec : String → List MVal → Except String (Int × Int))
    (data : Payload) : Except String Resp :=
  match decodeExecRequest data with
  | none => Except.error "unmarshal"
  | some req =>
    match dbExec req.query req.args with
    | Except.error e => Except.error e
    | Except.ok (ra, li) => Except.ok (Resp.execResp ra li)

/-- One iteration of the part_000 handleConnection loop (lines 96-107)
after a frame has been read: classify, run the handler, and on a handler
error return from the loop, which closes the connection. -/
def p0_connStep (dbQuery : String → List MVal → Except String (List String × List (List MVal)))
    (dbExec : String → List MVal → Except String (Int × Int))
    (data : Payload) : P0Step :=
  match p0_isQuery data with
  | none => P0Step.panicked
  | some true =>
    match p0_handleQuery dbQuery data with
    | Except.ok r => P0Step.respondContinue r
    | Except.error _ => P0Step.closed
  | some false =>
    match p0_handleExec dbExec data with
    | Except.ok r => P0Step.respondContinue r
    | Except.error _ => P0Step.closed

/-! ## Client driver adapter (src/unnamed/part_001) -/

/-- Atomic socket operations a driver call performs on the shared TCP
connection. -/
inductive SockOp : Type
  | write : List Nat → SockOp
  | read : Nat → SockOp
deriving DecidableEq

/-- Go struct Conn from part_001 lines 33-35: it holds only the net.Conn
socket handle — no mutex or any other serialization state. -/
structure Conn where
  conn : Nat

/-- Go struct Stmt from part_001: the connection handle and the query
text; Prepare only builds this value, sending nothing. -/
structure Stmt where
  conn : Nat
  query : String

/-- Conn.Begin from part_001 lines 46-48: returns (nil, fmt.Errorf(...))
unconditionally, performing no socket operation. -/
def Conn.Begin (_c : Conn) : Except String Unit × List SockOp :=
  (Except.error "transactions are not supported", [])

/-- Socket operations of sendRequest (part_001 lines 159-173): one 4-byte
big-endian length write via binary.Write, then one write of the marshalled
payload. No lock is taken before, between or after them. -/
def sendRequestOps (payload : List Nat) : List SockOp :=
  [SockOp.write (natTo4be payload.length), SockOp.write payload]

/-- Socket operations of one Stmt.Query call (send the request, then
readQueryResponse reads 4 length bytes and then the response payload).
respLen is the declared length of the response frame. -/
def stmtQueryOps (payload : List Nat) (respLen : Nat) : List SockOp :=
  sendRequestOps payload ++ [SockOp.read 4, SockOp.read respLen]

/-- isMerge t a b decides whether trace t is an order-preserving
interleaving of the operation sequences a and b. Since the adapter holds no
lock around the send/await pair, any such interleaving is a possible socket
trace of two concurrent calls; a serializing adapter would only allow
a ++ b and b ++ a. -/
def isMerge {α : Type} [DecidableEq α] : List α → List α → List α → Bool
  | [], xs, ys => xs.isEmpty && ys.isEmpty
  | z :: zs, xs, ys =>
    (match xs with
     | x :: xt => if z = x then isMerge zs xt ys else false
     | [] => false)
    ||
    (match ys with
     | y :: yt => if z = y then isMerge zs xs yt else false
     | [] => false)

/-! ## Client cursor (Rows) -/

/-- Go struct Rows from part_001 lines 120-125: the buffered columns and
row data, and the read position. -/
structure Rows where
  columns : List String
  data : List (List MVal)
  index : Nat

/-- Result of one Rows.Next call: a row copied into dest, or io.EOF. -/
inductive NextRes : Type
  | row : List MVal → NextRes
  | eof : NextRes

/-- The cursor Stmt.Query builds from a QueryResponse: index starts at 0. -/
def mkRows (columns : List String) (data : List (List MVal)) : Rows :=
  { columns := columns, data := data, index := 0 }

/-- Rows.Next from part_001 lines 135-142: io.EOF (state untouched) when
index has reached len(data), else the current row is copied to dest and
index incremented. The Go guard is written index >= len(data); the
dependent if here is its contrapositive so the row lookup is in bounds. -/
def Rows.Next (r : Rows) : NextRes × Rows :=
  if h : r.index < r.data.length then
    (NextRes.row (r.data.get ⟨r.index, h⟩), { r with index := r.index + 1 })
  else
    (NextRes.eof, r)

/-- Iterated Rows.Next: the cursor state after n calls. -/
def rowsNextN (r : Rows) : Nat → Rows
  | 0 => r
  | n + 1 => (Rows.Next (rowsNextN r n)).2

/-! ## Value codec

Modelled from the spec: the Value Codec of sections 4.4 and 6 — a tagged
encoding with an explicit one-byte discriminant per variant of the closed
Value set. No such codec exists under src/: both sides delegate value
encoding wholesale to a generic schemaless msgpack library
(msgpack.Marshal / msgpack.Unmarshal on interface values), so the
repository contains no code deciding this claim; the definitions below
follow the spec text. Float64 carries its IEEE-754 bit pattern as a Nat
below 2^64; Timestamp carries seconds (int64) and nanoseconds. -/

/-- The closed Value variant set of the driver boundary (spec section 3). -/
inductive Value : Type
  | null : Value
  | bool : Bool → Value
  | int64 : Int → Value
  | float64 : Nat → Value
  | str : List Nat → Value
  | bytes : List Nat → Value
  | timestamp : Int → Nat → Value
deriving DecidableEq

/-- Big-endian 8-byte encoding of a natural number below 2^64. -/
def natTo8be (n : Nat) : List Nat :=
  [n / 72057594037927936 % 256, n / 281474976710656 % 256,
   n / 1099511627776 % 256, n / 4294967296 % 256,
   n / 16777216 % 256, n / 65536 % 256, n / 256 % 256, n % 256]

/-- Big-endian 64-bit read. -/
def be64 : List Nat → Nat
  | [a, b, c, d, e, f, g, h] =>
    ((((((a * 256 + b) * 256 + c) * 256 + d) * 256 + e) * 256 + f) * 256 + g) * 256 + h
  | _ => 0

/-- Two's-complement 8-byte encoding of an int64. -/
def int64To8be (i : Int) : List Nat :=
  natTo8be (i % 18446744073709551616).toNat

/-- Two's-complement read of an int64 from its unsigned 64-bit value. -/
def int64Of64 (n : Nat) : Int :=
  if n < 9223372036854775808 then (n : Int) else (n : Int) - 18446744073709551616

/-- Modelled from the spec: tagged wire encoding of a Value, one explicit
discriminant byte per variant followed by the fixed- or length-prefixed
body. -/
def encodeValue : Value → List Nat
  | Value.null => [0]
  | Value.bool b => [1, if b then 1 else 0]
  | Value.int64 i => 2 :: int64To8be i
  | Value.float64 bits => 3 :: natTo8be bits
  | Value.str s => 4 :: (natTo4be s.length ++ s)
  | Value.bytes bs => 5 :: (natTo4be bs.length ++ bs)
  | Value.timestamp sec nsec => 6 :: (int64To8be sec ++ natTo4be nsec)

/-- Modelled from the spec: decoding one tagged Value from a byte stream,
returning the value and the remaining bytes; unknown tags or truncated
bodies fail. -/
def decodeValue : List Nat → Option (Value × List Nat)
  | 0 :: rest => some (Value.null, rest)
  | 1 :: b :: rest =>
    if b = 0 then some (Value.bool false, rest)
    else if b = 1 then some (Value.bool true, rest)
    else none
  | 2 :: b0 :: b1 :: b2 :: b3 :: b4 :: b5 :: b6 :: b7 :: rest =>
    some (Value.int64 (int64Of64 (be64 [b0, b1, b2, b3, b4, b5, b6, b7])), rest)
  | 3 :: b0 :: b1 :: b2 :: b3 :: b4 :: b5 :: b6 :: b7 :: rest =>
    some (Value.float64 (be64 [b0, b1, b2, b3, b4, b5, b6, b7]), rest)
  | 4 :: l0 :: l1 :: l2 :: l3 :: rest =>
    let n := be32 [l0, l1, l2, l3]
    if n ≤ rest.length then some (Value.str (rest.take n), rest.drop n) else none
  | 5 :: l0 :: l1 :: l2 :: l3 :: rest =>
    let n := be32 [l0, l1, l2, l3]
    if n ≤ rest.length then some (Value.bytes (rest.take n), rest.drop n) else none
  | 6 :: b0 :: b1 :: b2 :: b3 :: b4 :: b5 :: b6 :: b7 :: l0 :: l1 :: l2 :: l3 :: rest =>
    some (Value.timestamp (int64Of64 (be64 [b0, b1, b2, b3, b4, b5, b6, b7]))
      (be32 [l0, l1, l2, l3]), rest)
  | _ => none

/-- Wellformedness of a Value: machine-integer fields are in range and
length-prefixed bodies fit a 32-bit length. -/
def ValueWF : Value → Prop
  | Value.null => True
  | Value.bool _ => True
  | Value.int64 i => -9223372036854775808 ≤ i ∧ i < 9223372036854775808
  | Value.float64 bits => bits < 18446744073709551616
  | Value.str s => s.length < 4294967296
  | Value.bytes bs => bs.length < 4294967296
  | Value.timestamp sec nsec =>
    -9223372036854775808 ≤ sec ∧ sec < 9223372036854775808 ∧ nsec < 4294967296

/-! ## Theorems -/
lemma be32_natTo4be (n : Nat) (h : n < 4294967296) : be32 (natTo4be n) = n := by
  simp only [be32, natTo4be]
  omega

lemma take_len_append (p q : List Nat) : (p ++ q).take p.length = p := by
  simp

lemma drop_len_append (p q : List Nat) : (p ++ q).drop p.length = q := by
  simp

lemma frame_roundtrip_aux (p extra : List Nat) (h : p.length < 4294967296) :
    readFrame (writeFrame p ++ extra) = some (p, extra) := by
  have hw : writeFrame p ++ extra =
      (p.length / 16777216 % 256) :: (p.length / 65536 % 256) ::
      (p.length / 256 % 256) :: (p.length % 256) :: (p ++ extra) := by
    simp [writeFrame, natTo4be]
  rw [hw]
  have hbe : be32 [p.length / 16777216 % 256, p.length / 65536 % 256,
      p.length / 256 % 256, p.length % 256] = p.length := by
    simp only [be32]; omega
  simp only [readFrame, hbe]
  have hle : p.length ≤ (p ++ extra).length := by simp
  rw [if_pos hle, take_len_append, drop_len_append]

/-- C5: writing any payload of length below 2^32 (hence any length up to the
configured maximum frame size) as a 4-byte big-endian length-prefixed frame
and reading one frame back from the resulting stream yields exactly that
payload, with the rest of the stream untouched; the zero-length payload is
covered by the quantifier. -/
theorem frame_roundtrip (p extra : List Nat) (h : p.length < 4294967296) :
    readFrame (writeFrame p ++ extra) = some (p, extra) :=
  frame_roundtrip_aux p extra h

theorem frame_roundtrip_witness :
    readFrame (writeFrame [] ++ []) = some ([], []) ∧
    readFrame (writeFrame [7, 8, 9] ++ [1]) = some ([7, 8, 9], [1]) :=
  ⟨frame_roundtrip [] [] (by decide), frame_roundtrip [7, 8, 9] [1] (by decide)⟩

/-- C3: the servers enforce no maximum frame size. A frame whose declared
length exceeds the spec default maximum of 64 MiB is accepted in full by
readFrame: the code allocates the claimed buffer and reads the claimed
payload instead of failing with FrameTooLarge, and no such error exists in
the source. -/
theorem oversized_frame_accepted :
    readFrame (writeFrame (List.replicate (maxFrameSize + 1) 0)) =
      some (List.replicate (maxFrameSize + 1) 0, []) ∧
    maxFrameSize < maxFrameSize + 1 := by
  have hlen : (List.replicate (maxFrameSize + 1) (0 : Nat)).length < 4294967296 := by
    rw [List.length_replicate]; norm_num [maxFrameSize]
  have h := frame_roundtrip_aux (List.replicate (maxFrameSize + 1) 0) [] hlen
  rw [List.append_nil] at h
  exact ⟨h, Nat.lt_succ_self _⟩


lemma decodeRequestShape_encodeExec (e : ExecRequest) :
    decodeRequestShape (Payload.wellFormed (encodeExecRequest e)) = some (e.query, e.args) := by
  rfl

/-- C1: no opcode exists in the protocol. The payload marshalled from an
ExecRequest carries no one-byte opcode and is routed by heuristics, not by
an opcode: main.go sends it to query handling because msgpack decoding into
the identically-shaped QueryRequest succeeds, part_000 sends the same bytes
to exec handling because the first word is not SELECT, and part_000 routes
an ExecRequest whose text starts with SELECT to query handling; moreover
main.go routing is total — every payload goes to query or exec handling, so
no unknown-opcode ProtocolError can ever arise. -/
theorem opcode_routing_absent :
    main_route (Payload.wellFormed (encodeExecRequest { query := "DELETE FROM users", args := [] })) = Route.query ∧
    p0_isQuery (Payload.wellFormed (encodeExecRequest { query := "DELETE FROM users", args := [] })) = some false ∧
    p0_isQuery (Payload.wellFormed (encodeExecRequest { query := "SELECT 1", args := [MVal.int 7] })) = some true ∧
    (∀ p : Payload, main_route p = Route.query ∨ main_route p = Route.exec) := by
  refine ⟨rfl, rfl, rfl, ?_⟩
  intro p
  unfold main_route
  by_cases h : main_isQuery p
  · left; rw [if_pos h]
  · right; rw [if_neg h]

/-- C9: in src/cmd/proxy/main.go every payload that msgpack-decodes into
the QueryRequest shape is classified as a query, so every well-formed
ExecRequest sent by the client driver is routed to handleQuery (and hence
db.Query), and handleExec is reached exactly for payloads whose decode
fails. -/
theorem decode_success_routes_query :
    (∀ p r, decodeQueryRequest p = some r → main_route p = Route.query) ∧
    (∀ e : ExecRequest, main_route (Payload.wellFormed (encodeExecRequest e)) = Route.query) ∧
    (∀ dbQuery dbExec (e : ExecRequest),
      main_connStep dbQuery dbExec (Payload.wellFormed (encodeExecRequest e)) =
        main_handleQuery dbQuery (Payload.wellFormed (encodeExecRequest e))) ∧
    (∀ p : Payload, main_route p = Route.exec ↔ decodeQueryRequest p = none) := by
  have hq : ∀ e : ExecRequest,
      decodeQueryRequest (Payload.wellFormed (encodeExecRequest e)) =
        some { query := e.query, args := e.args } := by
    intro e
    simp [decodeQueryRequest, decodeRequestShape_encodeExec e]
  refine ⟨?_, ?_, ?_, ?_⟩
  · intro p r h
    simp [main_route, main_isQuery, h]
  · intro e
    simp [main_route, main_isQuery, hq e]
  · intro dbQuery dbExec e
    have : main_isQuery (Payload.wellFormed (encodeExecRequest e)) = true := by
      simp [main_isQuery, hq e]
    simp [main_connStep, this]
  · intro p
    unfold main_route main_isQuery
    cases h : decodeQueryRequest p with
    | none => simp [h]
    | some r => simp [h]

/-- C2: a SQL-level execution failure terminates the part_000 connection
loop with no response of any kind: handleExec propagates the db.Exec error,
handleConnection returns, and the deferred conn.Close() closes the
connection. No error-response variant exists in the source (Resp has only
query and exec responses), so the failure is not reported and the
connection does not continue serving requests. -/
theorem exec_failure_closes_connection :
    p0_connStep (fun _ _ => Except.error "q") (fun _ _ => Except.error "constraint violation")
      (Payload.wellFormed (encodeExecRequest
        { query := "UPDATE users SET name = ?", args := [MVal.str "Bob"] })) = P0Step.closed ∧
    p0_connStep (fun _ _ => Except.error "syntax error") (fun _ _ => Except.error "e")
      (Payload.wellFormed (encodeQueryRequest
        { query := "SELECT id FROM users", args := [] })) = P0Step.closed :=
  ⟨rfl, rfl⟩

/-- C10: in src/cmd/proxy/main.go, whenever the backing engine call for a
request fails, handleQuery reaches the nil dereference (rows.Columns and
the deferred rows.Close run on the nil *sql.Rows) and handleExec reaches
the nil dereference (result.RowsAffected on the nil driver.Result): the
failure branch is reachable and unguarded. -/
theorem failed_engine_nil_deref
    (dbQuery : String → List MVal → Except String (List String × List (List MVal)))
    (dbExec : String → List MVal → Except String (Int × Int))
    (p : Payload) (e1 e2 : String)
    (h1 : dbQuery ((decodeQueryRequest p).getD { query := "", args := [] }).query
      ((decodeQueryRequest p).getD { query := "", args := [] }).args = Except.error e1)
    (h2 : dbExec ((decodeExecRequest p).getD { query := "", args := [] }).query
      ((decodeExecRequest p).getD { query := "", args := [] }).args = Except.error e2) :
    main_handleQuery dbQuery p = MainOutcome.nilDeref ∧
    main_handleExec dbExec p = MainOutcome.nilDeref := by
  constructor
  · simp only [main_handleQuery, h1]
  · simp only [main_handleExec, h2]

theorem failed_engine_nil_deref_witness :
    main_handleQuery (fun _ _ => Except.error "syntax error")
      (Payload.wellFormed (encodeQueryRequest { query := "SELECT bogus", args := [] })) =
        MainOutcome.nilDeref ∧
    main_handleExec (fun _ _ => Except.error "constraint violation")
      (Payload.wellFormed (encodeQueryRequest { query := "SELECT bogus", args := [] })) =
        MainOutcome.nilDeref :=
  failed_engine_nil_deref (fun _ _ => Except.error "syntax error")
    (fun _ _ => Except.error "constraint violation")
    (Payload.wellFormed (encodeQueryRequest { query := "SELECT bogus", args := [] }))
    "syntax error" "constraint violation" rfl rfl

/-- C6: Conn.Begin in the client driver always fails with the
transactions-are-not-supported error, returns synchronously with no socket
operation, and never yields a transaction handle. -/
theorem begin_unsupported (c : Conn) :
    (Conn.Begin c).1 = Except.error "transactions are not supported" ∧
    (Conn.Begin c).2 = [] ∧
    ∀ t : Unit, (Conn.Begin c).1 ≠ Except.ok t := by
  refine ⟨rfl, rfl, ?_⟩
  intro t h
  simp [Conn.Begin] at h

theorem decode_success_routes_query_witness :
    main_route (Payload.wellFormed (encodeExecRequest
      { query := "INSERT INTO t VALUES (1)", args := [] })) = Route.query :=
  decode_success_routes_query.1
    (Payload.wellFormed (encodeExecRequest { query := "INSERT INTO t VALUES (1)", args := [] }))
    { query := "INSERT INTO t VALUES (1)", args := [] } rfl

/-- C8: the client adapter does not serialize concurrent calls. The Conn
struct holds nothing but the socket, and Stmt.Query performs its two writes
and two reads with no lock, so two concurrent Stmt.Query calls on one
connection admit a socket trace that is a genuine interleaving of their
operations — below, the second call writes its length prefix between the
first call's length prefix and payload — and not one of the two serialized
orders a mutual-exclusion guard would force. -/
theorem concurrent_calls_interleave :
    isMerge
      [SockOp.write (natTo4be 1), SockOp.write (natTo4be 1), SockOp.write [1], SockOp.write [2],
       SockOp.read 4, SockOp.read 0, SockOp.read 4, SockOp.read 0]
      (stmtQueryOps [1] 0) (stmtQueryOps [2] 0) = true ∧
    [SockOp.write (natTo4be 1), SockOp.write (natTo4be 1), SockOp.write [1], SockOp.write [2],
     SockOp.read 4, SockOp.read 0, SockOp.read 4, SockOp.read 0] ≠
      stmtQueryOps [1] 0 ++ stmtQueryOps [2] 0 ∧
    [SockOp.write (natTo4be 1), SockOp.write (natTo4be 1), SockOp.write [1], SockOp.write [2],
     SockOp.read 4, SockOp.read 0, SockOp.read 4, SockOp.read 0] ≠
      stmtQueryOps [2] 0 ++ stmtQueryOps [1] 0 := by
  refine ⟨by decide, by decide, by decide⟩

lemma rowsNextN_of_le (cols : List String) (data : List (List MVal)) (i : Nat)
    (h : i ≤ data.length) :
    rowsNextN (mkRows cols data) i = { columns := cols, data := data, index := i } := by
  induction i with
  | zero => rfl
  | succ n ih =>
    have hn : n ≤ data.length := Nat.le_of_succ_le h
    rw [rowsNextN, ih hn, Rows.Next]
    have hlt : n < data.length := h
    rw [dif_pos hlt]

lemma rowsNextN_exhausted (cols : List String) (data : List (List MVal)) (j : Nat) :
    rowsNextN (mkRows cols data) (data.length + j) =
      { columns := cols, data := data, index := data.length } := by
  induction j with
  | zero => exact rowsNextN_of_le cols data data.length le_rfl
  | succ n ih =>
    have : data.length + (n + 1) = (data.length + n) + 1 := rfl
    rw [this, rowsNextN, ih, Rows.Next]
    rw [dif_neg (by simp)]

/-- C7: the cursor built from a QueryResponse yields the buffered rows in
order — the i-th successful Next returns row i — and once all rows are
consumed every further Next leaves the cursor state exactly where it was
after exhaustion and returns the same io.EOF signal. -/
theorem cursor_next_order_exhaustion (cols : List String) (data : List (List MVal))
    (i j : Nat) (h : i < data.length) :
    (Rows.Next (rowsNextN (mkRows cols data) i)).1 = NextRes.row (data.get ⟨i, h⟩) ∧
    rowsNextN (mkRows cols data) (data.length + j) = rowsNextN (mkRows cols data) data.length ∧
    (Rows.Next (rowsNextN (mkRows cols data) (data.length + j))).1 = NextRes.eof := by
  refine ⟨?_, ?_, ?_⟩
  · rw [rowsNextN_of_le cols data i (Nat.le_of_lt h), Rows.Next, dif_pos h]
  · rw [rowsNextN_exhausted cols data j, rowsNextN_of_le cols data data.length le_rfl]
  · rw [rowsNextN_exhausted cols data j, Rows.Next, dif_neg (by simp)]

theorem cursor_next_order_exhaustion_witness :
    (Rows.Next (rowsNextN (mkRows ["id", "name"]
        [[MVal.int 1, MVal.str "Alice"], [MVal.int 2, MVal.str "Bob"]]) 1)).1 =
      NextRes.row [MVal.int 2, MVal.str "Bob"] ∧
    rowsNextN (mkRows ["id", "name"]
        [[MVal.int 1, MVal.str "Alice"], [MVal.int 2, MVal.str "Bob"]]) (2 + 3) =
      rowsNextN (mkRows ["id", "name"]
        [[MVal.int 1, MVal.str "Alice"], [MVal.int 2, MVal.str "Bob"]]) 2 ∧
    (Rows.Next (rowsNextN (mkRows ["id", "name"]
        [[MVal.int 1, MVal.str "Alice"], [MVal.int 2, MVal.str "Bob"]]) (2 + 3))).1 =
      NextRes.eof :=
  cursor_next_order_exhaustion ["id", "name"]
    [[MVal.int 1, MVal.str "Alice"], [MVal.int 2, MVal.str "Bob"]] 1 3 (by decide)

lemma be64_natTo8be (n : Nat) (h : n < 18446744073709551616) : be64 (natTo8be n) = n := by
  simp only [be64, natTo8be]
  omega

lemma int64_roundtrip (i : Int) (h1 : -9223372036854775808 ≤ i)
    (h2 : i < 9223372036854775808) : int64Of64 (be64 (int64To8be i)) = i := by
  have hm0 : 0 ≤ i % 18446744073709551616 := Int.emod_nonneg i (by norm_num)
  have hm1 : i % 18446744073709551616 < 18446744073709551616 :=
    Int.emod_lt_of_pos i (by norm_num)
  have hn' : ((i % 18446744073709551616).toNat : Int) = i % 18446744073709551616 :=
    Int.toNat_of_nonneg hm0
  unfold int64To8be
  rw [be64_natTo8be _ (by omega)]
  unfold int64Of64
  split <;> omega

/-- C4: the tagged Value codec modelled from the spec preserves every
variant exactly: decoding the encoding of any wellformed Value yields that
Value back with its discriminant intact — Null decodes to null, negative
Int64 and empty String and Bytes round-trip, and distinct tags keep int64,
float64, string and timestamp apart. -/
theorem value_roundtrip (v : Value) (rest : List Nat) (h : ValueWF v) :
    decodeValue (encodeValue v ++ rest) = some (v, rest) := by
  cases v with
  | null => rfl
  | bool b => cases b <;> rfl
  | int64 i =>
    obtain ⟨h1, h2⟩ := h
    have key := int64_roundtrip i h1 h2
    simp only [int64To8be, natTo8be] at key
    simp only [encodeValue, int64To8be, natTo8be, List.cons_append, List.nil_append,
      decodeValue]
    rw [key]
  | float64 bits =>
    have key := be64_natTo8be bits h
    simp only [natTo8be] at key
    simp only [encodeValue, natTo8be, List.cons_append, List.nil_append, decodeValue]
    rw [key]
  | str s =>
    have hbe := be32_natTo4be s.length h
    simp only [natTo4be] at hbe
    simp only [encodeValue, natTo4be, List.cons_append, List.nil_append, List.append_assoc,
      decodeValue]
    rw [hbe, if_pos (by simp), take_len_append, drop_len_append]
  | bytes bs =>
    have hbe := be32_natTo4be bs.length h
    simp only [natTo4be] at hbe
    simp only [encodeValue, natTo4be, List.cons_append, List.nil_append, List.append_assoc,
      decodeValue]
    rw [hbe, if_pos (by simp), take_len_append, drop_len_append]
  | timestamp sec nsec =>
    obtain ⟨hs1, hs2, hn⟩ := h
    have key := int64_roundtrip sec hs1 hs2
    simp only [int64To8be, natTo8be] at key
    have hbe := be32_natTo4be nsec hn
    simp only [natTo4be] at hbe
    simp only [encodeValue, int64To8be, natTo8be, natTo4be, List.cons_append,
      List.nil_append, List.append_assoc, decodeValue]
    rw [key, hbe]

theorem value_roundtrip_witness :
    decodeValue (encodeValue Value.null ++ []) = some (Value.null, []) ∧
    decodeValue (encodeValue (Value.bool true) ++ []) = some (Value.bool true, []) ∧
    decodeValue (encodeValue (Value.int64 (-5)) ++ []) = some (Value.int64 (-5), []) ∧
    decodeValue (encodeValue (Value.float64 4617315517961601024) ++ []) =
      some (Value.float64 4617315517961601024, []) ∧
    decodeValue (encodeValue (Value.str []) ++ []) = some (Value.str [], []) ∧
    decodeValue (encodeValue (Value.bytes []) ++ []) = some (Value.bytes [], []) ∧
    decodeValue (encodeValue (Value.timestamp 1700000000 500) ++ []) =
      some (Value.timestamp 1700000000 500, []) :=
  ⟨value_roundtrip Value.null [] (by norm_num [ValueWF]),
   value_roundtrip (Value.bool true) [] (by norm_num [ValueWF]),
   value_roundtrip (Value.int64 (-5)) [] (by norm_num [ValueWF]),
   value_roundtrip (Value.float64 4617315517961601024) [] (by norm_num [ValueWF]),
   value_roundtrip (Value.str []) [] (by norm_num [ValueWF]),
   value_roundtrip (Value.bytes []) [] (by norm_num [ValueWF]),
   value_roundtrip (Value.timestamp 1700000000 500) [] (by norm_num [ValueWF])⟩
